import Mathlib

/-!
Verification of the element-location engine of the playwright-demo repository.

The development shallowly embeds the two source files:
* `add_to_cart.py` — the Visual Locator (`find_image_coordinates`) built on
  OpenCV template matching (`cv2.matchTemplate` with `TM_CCOEFF_NORMED` and
  `cv2.minMaxLoc`), and the retry wrapper `visual_click`.
* `add_to_cart_classic.py` — the DOM Locator cascade (`add_to_cart`,
  `handle_cookie_popup`).

Images are modelled as exact rational pixel grids; the normalized
cross-correlation surface is real-valued.  The OpenCV library calls are
modelled from their documented formulas together with their defined
degenerate behavior: for `TM_CCOEFF_NORMED`, a zero-variance template makes
the whole result matrix equal to 1, and a zero-variance window yields 0;
`minMaxLoc` returns the first maximum in row-major scan order;
`matchTemplate` raises when the template does not fit inside the image
(the Python code catches that exception and returns `None`).
-/

namespace AddToCart

/-! ### Pixel grids and grayscale conversion -/

/-- A color image: height, width and a BGR pixel function (exact rationals,
the idealization of the uint8 grid `cv2.imdecode` / `cv2.imread` produce). -/
structure ColorImg where
  h : ℕ
  w : ℕ
  px : ℕ → ℕ → ℚ × ℚ × ℚ

/-- One grayscale intensity, as computed by `cv2.cvtColor(·, COLOR_BGR2GRAY)`
with the BT.601 weights 0.299 R + 0.587 G + 0.114 B (pixel is (B, G, R)). -/
def grayVal (p : ℚ × ℚ × ℚ) : ℚ :=
  (299 * p.2.2 + 587 * p.2.1 + 114 * p.1) / 1000

/-- A single-channel (grayscale) image. -/
structure GrayImg where
  h : ℕ
  w : ℕ
  px : ℕ → ℕ → ℚ

/-- `cv2.cvtColor(img, COLOR_BGR2GRAY)`. -/
def toGray (c : ColorImg) : GrayImg :=
  ⟨c.h, c.w, fun i j => grayVal (c.px i j)⟩

/-! ### `cv2.matchTemplate` with `TM_CCOEFF_NORMED` -/

/-- Index set of a template: all (row, col) pairs inside it. -/
def tIdx (T : GrayImg) : Finset (ℕ × ℕ) :=
  Finset.range T.h ×ˢ Finset.range T.w

/-- Number of template pixels, as a rational. -/
def area (T : GrayImg) : ℚ := (T.h : ℚ) * (T.w : ℚ)

/-- Mean intensity of the template. -/
def tmean (T : GrayImg) : ℚ :=
  (∑ ij ∈ tIdx T, T.px ij.1 ij.2) / area T

/-- Sum of squared deviations of the template from its mean
(OpenCV's `templNorm`, zero exactly for a uniform template). -/
def templNorm2 (T : GrayImg) : ℚ :=
  ∑ ij ∈ tIdx T, (T.px ij.1 ij.2 - tmean T) ^ 2

/-- Mean intensity of the window of `I` of the template's size whose
top-left corner is at offset `p = (x, y)`. -/
def wmean (I T : GrayImg) (p : ℕ × ℕ) : ℚ :=
  (∑ ij ∈ tIdx T, I.px (p.2 + ij.1) (p.1 + ij.2)) / area T

/-- Cross-correlation numerator at offset `p`:
Σ (I − window mean) · (T − template mean). -/
def ccNum (I T : GrayImg) (p : ℕ × ℕ) : ℚ :=
  ∑ ij ∈ tIdx T,
    (I.px (p.2 + ij.1) (p.1 + ij.2) - wmean I T p) * (T.px ij.1 ij.2 - tmean T)

/-- Sum of squared deviations of the window at offset `p` from its mean. -/
def wNorm2 (I T : GrayImg) (p : ℕ × ℕ) : ℚ :=
  ∑ ij ∈ tIdx T, (I.px (p.2 + ij.1) (p.1 + ij.2) - wmean I T p) ^ 2

/-- The `TM_CCOEFF_NORMED` score at offset `p`.  OpenCV sets the whole result
to 1 when the template has zero variance; otherwise the score is
num / sqrt(windowNorm · templNorm), which is 0 when the window has zero
variance (numerator and denominator both vanish; OpenCV outputs 0, and Lean's
division-by-zero convention agrees). -/
noncomputable def score (I T : GrayImg) (p : ℕ × ℕ) : ℝ :=
  if templNorm2 T = 0 then 1
  else (ccNum I T p : ℝ) / Real.sqrt ((wNorm2 I T p * templNorm2 T : ℚ) : ℝ)

/-- Row-major list of all result offsets (x inner, y outer), the order in
which `cv2.minMaxLoc` scans the result matrix. -/
def offsets (rows cols : ℕ) : List (ℕ × ℕ) :=
  (List.range rows).flatMap (fun y => (List.range cols).map (fun x => (x, y)))

/-- Fold keeping the first (in scan order) argument of the maximum, as
`cv2.minMaxLoc` does: a later entry replaces the current best only if it is
strictly greater. -/
noncomputable def scanMax {α : Type} (f : α → ℝ) : List α → α → α
  | [], best => best
  | a :: rest, best => scanMax f rest (if f best < f a then a else best)

/-- `max_loc` of `cv2.minMaxLoc` over the `TM_CCOEFF_NORMED` result. -/
noncomputable def minMaxLocArg (I T : GrayImg) : ℕ × ℕ :=
  scanMax (score I T) (offsets (I.h - T.h + 1) (I.w - T.w + 1)) (0, 0)

/-- `max_val` of `cv2.minMaxLoc` over the `TM_CCOEFF_NORMED` result. -/
noncomputable def maxVal (I T : GrayImg) : ℝ :=
  score I T (minMaxLocArg I T)

/-! ### `find_image_coordinates` -/

/-- The dict `{"x": center_x, "y": center_y, "val": max_val}` returned by
`find_image_coordinates` on success. -/
structure Coords where
  x : ℕ
  y : ℕ
  val : ℝ

/-- Outcome of the two image acquisitions performed by
`find_image_coordinates`: `screenshot` is the decoded screenshot (`none` when
`page.screenshot()` raises or the bytes fail to decode — that exception is
caught by the function's `except` block), `template` is the result of
`cv2.imread(template_path)` (`none` when the reference image fails to
decode). -/
structure VisionEnv where
  screenshot : Option ColorImg
  template : Option ColorImg

/-- `cv2.matchTemplate` requires a nonempty template that fits inside the
image; otherwise it raises `cv2.error`. -/
abbrev dimsOk (sg tg : GrayImg) : Prop :=
  0 < tg.h ∧ 0 < tg.w ∧ tg.h ≤ sg.h ∧ tg.w ≤ sg.w

/-- Embedding of `find_image_coordinates(page, template_path, threshold)`.
The screenshot is taken first; a failure there raises and is caught,
returning `None`.  A template that fails to load prints and returns `None`.
A template that does not fit makes `cv2.matchTemplate` raise, caught by the
same `except`, returning `None`.  Otherwise the maximum of the correlation
surface is compared against the threshold: at or above it, the center of the
best window (`max_loc` plus half the template size, integer division) is
returned with the confidence attached; below it, `None`. -/
noncomputable def find_image_coordinates (env : VisionEnv) (threshold : ℝ) :
    Option Coords :=
  match env.screenshot with
  | none => none
  | some screen =>
    match env.template with
    | none => none
    | some tmpl =>
      let sg := toGray screen
      let tg := toGray tmpl
      if dimsOk sg tg then
        if threshold ≤ maxVal sg tg then
          some ⟨(minMaxLocArg sg tg).1 + tg.w / 2,
                (minMaxLocArg sg tg).2 + tg.h / 2, maxVal sg tg⟩
        else none
      else none

/-! ### `visual_click`: wait + one-shot + retry, with its event trace

Durations are in seconds.  Each invocation of `find_image_coordinates`
performs exactly one fresh screenshot; captures are numbered in the order
they are taken, and the page is modelled as the stream of frames those
captures would observe. -/

inductive VEvent where
  | waitSel : VEvent
  | sleep : ℚ → VEvent
  | locate : ℕ → VEvent
  | capture : ℕ → VEvent
  | move : ℕ → ℕ → VEvent
  | click : ℕ → ℕ → VEvent
deriving DecidableEq

/-- The page as seen by `visual_click`: the frame observed by the `n`-th
screenshot (`none` when that capture fails), and the reference image on
disk. -/
structure VisualEnv where
  frames : ℕ → Option ColorImg
  template : Option ColorImg

/-- The `n`-th invocation of `find_image_coordinates`, which captures the
`n`-th frame. -/
noncomputable def findAt (env : VisualEnv) (t : ℝ) (n : ℕ) : Option Coords :=
  find_image_coordinates ⟨env.frames n, env.template⟩ t

/-- Embedding of `visual_click(page, template_path, wait_for_selector)`:
optional DOM wait (timeouts swallowed), fixed 0.5 s render buffer, attempt 1
(capture 0); on `None`, fixed 1.0 s wait then attempt 2 (capture 1); if some
attempt found the target, move the pointer to the center then click there and
return `True`, else return `False`.  The default threshold 0.8 is used. -/
noncomputable def visual_click (env : VisualEnv) (waitForSelector : Bool) :
    Bool × List VEvent :=
  let pre := (if waitForSelector then [VEvent.waitSel] else []) ++
    [VEvent.sleep (1 / 2), VEvent.locate 0, VEvent.capture 0]
  match findAt env (4 / 5) 0 with
  | some c => (true, pre ++ [VEvent.move c.x c.y, VEvent.click c.x c.y])
  | none =>
    let pre2 := pre ++ [VEvent.sleep 1, VEvent.locate 1, VEvent.capture 1]
    match findAt env (4 / 5) 1 with
    | some c => (true, pre2 ++ [VEvent.move c.x c.y, VEvent.click c.x c.y])
    | none => (false, pre2)

/-- Is an event an invocation of the locate function? -/
def isLocate : VEvent → Bool
  | VEvent.locate _ => true
  | _ => false

/-- Number of locate invocations recorded in a trace. -/
def countLocate (tr : List VEvent) : ℕ := (tr.filter isLocate).length

/-- The capture indices of a trace, in order. -/
def captureIdxs : List VEvent → List ℕ
  | [] => []
  | VEvent.capture n :: rest => n :: captureIdxs rest
  | _ :: rest => captureIdxs rest

/-- Checks that every click at a coordinate is preceded by a pointer move to
that same coordinate (`s` accumulates the coordinates moved to so far). -/
def movedBefore : List VEvent → List (ℕ × ℕ) → Bool
  | [], _ => true
  | VEvent.move x y :: rest, s => movedBefore rest ((x, y) :: s)
  | VEvent.click x y :: rest, s => decide ((x, y) ∈ s) && movedBefore rest s
  | _ :: rest, s => movedBefore rest s

/-! ### The DOM locator (`add_to_cart_classic.py`) -/

/-- Outcome of one visibility probe `page.locator(sel).first.is_visible(
timeout=2000)`: the element is visible; it is absent or not visible; or
the probe raises (malformed pattern, transient query error).  The code
treats the last two identically (`continue`). -/
inductive Probe where
  | visible : Probe
  | notVisible : Probe
  | error : Probe
deriving DecidableEq

/-- A selector candidate: CSS pattern plus the human-readable strategy name
the code logs when it matches.  (Quote characters inside the original
pattern strings are omitted; the cascade treats patterns as opaque.) -/
structure Candidate where
  pattern : String
  strategy : String
deriving DecidableEq

/-- The ranked `button_selectors` list of `add_to_cart`, most stable
first. -/
def button_selectors : List Candidate :=
  [⟨"input[name=submit.add-to-cart]", "name attribute"⟩,
   ⟨"input[id^=add-to-cart-button]", "ID prefix (dynamic suffix)"⟩,
   ⟨"[id^=add-to-cart-button]", "ID prefix (any element)"⟩,
   ⟨"input:has-text(Add to Cart)", "text Add to Cart"⟩,
   ⟨"input:has-text(Add to basket)", "text Add to basket"⟩,
   ⟨"button:has-text(Add to Cart)", "button with text Add to Cart"⟩,
   ⟨"button:has-text(Add to basket)", "button with text Add to basket"⟩,
   ⟨":has-text(Add to Cart)", "any element with Add to Cart"⟩,
   ⟨":has-text(Add to basket)", "any element with Add to basket"⟩]

/-- Embedding of the selector loop of `add_to_cart`: probe candidates in
list order; the first visible one is returned (and recorded as the matched
strategy) and the loop breaks; a not-visible result or a raised probe both
`continue`.  Also returns the list of candidates actually probed. -/
def cascade (probe : Candidate → Probe) :
    List Candidate → Option Candidate × List Candidate
  | [] => (none, [])
  | c :: rest =>
    match probe c with
    | Probe.visible => (some c, [c])
    | _ => ((cascade probe rest).1, c :: (cascade probe rest).2)

/-- The `cookie_selectors` list of `handle_cookie_popup` (quote characters
omitted from patterns). -/
def cookie_selectors : List String :=
  ["#sp-cc-accept", "button:has-text(Accept)",
   "button:has-text(Accept Cookies)", "button:has-text(I agree)",
   "button:has-text(Accept all)", "input[name=accept]",
   "#accept-cookie-button", ".cookie-accept", ".accept-cookies"]

/-- Embedding of `handle_cookie_popup`: try each selector; if visible, click
it — a click that raises is caught by the per-selector `except` and the loop
continues; any probe failure also continues.  Total: never propagates. -/
def handle_cookie_popup (probe : String → Probe) (clickOk : String → Bool) :
    List String → Bool
  | [] => false
  | s :: rest =>
    match probe s with
    | Probe.visible =>
      if clickOk s then true else handle_cookie_popup probe clickOk rest
    | _ => handle_cookie_popup probe clickOk rest

/-- `page.goto` outcome: success, `PlaywrightTimeoutError`, or another
exception. -/
inductive GotoR where
  | ok : GotoR
  | timeout : GotoR
  | fail : GotoR
deriving DecidableEq

/-- Exceptions that can escape the `try` body of `add_to_cart`. -/
inductive Err where
  | timeout : Err
  | other : Err
deriving DecidableEq

/-- Everything the collaborator (browser) decides during one
`add_to_cart(page, url)` call. -/
structure ClassicEnv where
  goto : GotoR
  cookieProbe : String → Probe
  cookieClick : String → Bool
  buttonProbe : Candidate → Probe
  clickOk : Bool

/-- The `try` body of `add_to_cart`: navigate (may raise), dismiss the
cookie popup (total, result unused), run the selector cascade; no button
found returns `False`; otherwise click the button (may raise) and return
`True`. -/
def add_to_cart_body (env : ClassicEnv) : Except Err Bool :=
  match env.goto with
  | GotoR.timeout => Except.error Err.timeout
  | GotoR.fail => Except.error Err.other
  | GotoR.ok =>
    let _ := handle_cookie_popup env.cookieProbe env.cookieClick
      cookie_selectors
    match (cascade env.buttonProbe button_selectors).1 with
    | none => Except.ok false
    | some _ =>
      if env.clickOk then Except.ok true else Except.error Err.other

/-- `add_to_cart` proper: both `except` clauses print and return `False`,
so every escaping exception is collapsed into the `False` return value. -/
def add_to_cart (env : ClassicEnv) : Bool :=
  match add_to_cart_body env with
  | Except.ok b => b
  | Except.error Err.timeout => false
  | Except.error Err.other => false

/-! ### Concrete images used in witnesses and counterexamples -/

/-- Solid white pixel (BGR). -/
def whitePx : ℚ × ℚ × ℚ := (255, 255, 255)

/-- Solid red pixel (BGR). -/
def redPx : ℚ × ℚ × ℚ := (0, 0, 255)

/-- Solid black pixel (BGR). -/
def blackPx : ℚ × ℚ × ℚ := (0, 0, 0)

/-- A 4×4 white frame with a 2×2 solid red square at rows 2–3, cols 2–3
(the small-scale version of the spec's 100×100-white / 10×10-red
scenario). -/
def redSquareFrame : ColorImg :=
  ⟨4, 4, fun i j => if 2 ≤ i ∧ 2 ≤ j then redPx else whitePx⟩

/-- A 2×2 solid red reference image (uniform after grayscale). -/
def redTemplate : ColorImg := ⟨2, 2, fun _ _ => redPx⟩

/-- A 1×3 frame: white, black, white. -/
def bwFrame : ColorImg :=
  ⟨1, 3, fun _ j => if j = 1 then blackPx else whitePx⟩

/-- A 1×2 reference: black then white (non-uniform), pixel-identical to
`bwFrame` at offset x = 1. -/
def bwTemplate : ColorImg :=
  ⟨1, 2, fun _ j => if j = 0 then blackPx else whitePx⟩

/-- A 1×2 all-white frame. -/
def whiteFrame : ColorImg := ⟨1, 2, fun _ _ => whitePx⟩

/-- A 1×1 all-white reference (uniform). -/
def whiteTemplate : ColorImg := ⟨1, 1, fun _ _ => whitePx⟩

/-- A 3×5 reference, larger than `whiteFrame` in both dimensions. -/
def bigTemplate : ColorImg := ⟨3, 5, fun _ _ => redPx⟩

/-- The durations of the sleep events of a trace, in order. -/
def sleepsOf : List VEvent → List ℚ
  | [] => []
  | VEvent.sleep q :: rest => q :: sleepsOf rest
  | _ :: rest => sleepsOf rest

/-! ### Concrete DOM-locator data used in witnesses -/

/-- Candidate A of the three-candidate test cascade. -/
def candA : Candidate := ⟨"#missing", "a"⟩

/-- Candidate B of the three-candidate test cascade. -/
def candB : Candidate := ⟨"#also-missing", "b"⟩

/-- Candidate C of the three-candidate test cascade. -/
def candC : Candidate := ⟨"#real-button", "c"⟩

/-- A probe where A raises, B is not visible and only C is visible. -/
def probeW : Candidate → Probe := fun c =>
  if c = candC then Probe.visible
  else if c = candA then Probe.error
  else Probe.notVisible

/-- A run whose navigation times out. -/
def envNavTimeout : ClassicEnv :=
  ⟨GotoR.timeout, fun _ => Probe.notVisible, fun _ => true,
   fun _ => Probe.notVisible, true⟩

/-- A run that navigates fine but where no add-to-cart button is found. -/
def envNoButton : ClassicEnv :=
  ⟨GotoR.ok, fun _ => Probe.notVisible, fun _ => true,
   fun _ => Probe.notVisible, true⟩

/-- A run where everything succeeds. -/
def envGood : ClassicEnv :=
  ⟨GotoR.ok, fun _ => Probe.notVisible, fun _ => true,
   fun _ => Probe.visible, true⟩

/-! ### Theorems -/

/-! ### Facts about the `minMaxLoc` scan -/

theorem scanMax_ge_init {α : Type} (f : α → ℝ) (l : List α) (init : α) :
    f init ≤ f (scanMax f l init) := by
  induction l generalizing init with
  | nil => exact le_refl _
  | cons a rest ih =>
    simp only [scanMax]
    by_cases h : f init < f a
    · rw [if_pos h]
      exact le_trans h.le (ih a)
    · rw [if_neg h]
      exact ih init

theorem scanMax_ge_mem {α : Type} (f : α → ℝ) (l : List α) (init : α)
    (a : α) (ha : a ∈ l) : f a ≤ f (scanMax f l init) := by
  induction l generalizing init with
  | nil => cases ha
  | cons b rest ih =>
    simp only [scanMax]
    rcases List.mem_cons.mp ha with h | h
    · subst h
      by_cases hb : f init < f a
      · rw [if_pos hb]
        exact scanMax_ge_init f rest a
      · rw [if_neg hb]
        exact le_trans (not_lt.mp hb) (scanMax_ge_init f rest init)
    · by_cases hb : f init < f b
      · rw [if_pos hb]
        exact ih b h
      · rw [if_neg hb]
        exact ih init h

theorem scanMax_mem {α : Type} (f : α → ℝ) (l : List α) (init : α) :
    scanMax f l init = init ∨ scanMax f l init ∈ l := by
  induction l generalizing init with
  | nil => exact Or.inl rfl
  | cons a rest ih =>
    simp only [scanMax]
    by_cases h : f init < f a
    · rw [if_pos h]
      rcases ih a with h1 | h1
      · right
        rw [h1]
        exact List.mem_cons_self a rest
      · exact Or.inr (List.mem_cons_of_mem a h1)
    · rw [if_neg h]
      rcases ih init with h1 | h1
      · exact Or.inl h1
      · exact Or.inr (List.mem_cons_of_mem a h1)

theorem scanMax_of_le {α : Type} (f : α → ℝ) (l : List α) (init : α)
    (h : ∀ a ∈ l, f a ≤ f init) : scanMax f l init = init := by
  induction l with
  | nil => rfl
  | cons a rest ih =>
    simp only [scanMax]
    rw [if_neg (not_lt.mpr (h a (List.mem_cons_self a rest)))]
    exact ih fun b hb => h b (List.mem_cons_of_mem a hb)

theorem mem_offsets {rows cols : ℕ} {p : ℕ × ℕ} :
    p ∈ offsets rows cols ↔ p.1 < cols ∧ p.2 < rows := by
  cases p with
  | mk x y =>
    simp only [offsets, List.mem_flatMap, List.mem_map, List.mem_range]
    constructor
    · rintro ⟨y', hy', x', hx', hxy⟩
      cases hxy
      exact ⟨hx', hy'⟩
    · rintro ⟨hx, hy⟩
      exact ⟨y, hy, x, hx, rfl⟩

/-! ### Facts about the correlation surface -/

theorem templNorm2_nonneg (T : GrayImg) : 0 ≤ templNorm2 T :=
  Finset.sum_nonneg fun _ _ => sq_nonneg _

theorem wNorm2_nonneg (I T : GrayImg) (p : ℕ × ℕ) : 0 ≤ wNorm2 I T p :=
  Finset.sum_nonneg fun _ _ => sq_nonneg _

/-- Cauchy–Schwarz for the correlation numerator. -/
theorem ccNum_sq_le (I T : GrayImg) (p : ℕ × ℕ) :
    ccNum I T p ^ 2 ≤ wNorm2 I T p * templNorm2 T :=
  Finset.sum_mul_sq_le_sq_mul_sq (tIdx T)
    (fun ij => I.px (p.2 + ij.1) (p.1 + ij.2) - wmean I T p)
    (fun ij => T.px ij.1 ij.2 - tmean T)

/-- Every entry of the `TM_CCOEFF_NORMED` surface is at most 1. -/
theorem score_le_one (I T : GrayImg) (p : ℕ × ℕ) : score I T p ≤ 1 := by
  unfold score
  by_cases hS : templNorm2 T = 0
  · rw [if_pos hS]
  · rw [if_neg hS]
    rcases (Real.sqrt_nonneg ((wNorm2 I T p * templNorm2 T : ℚ) : ℝ)).eq_or_lt
      with h0 | h0
    · rw [← h0, div_zero]
      exact zero_le_one
    · rw [div_le_one h0]
      have hsq : ((ccNum I T p : ℚ) : ℝ) ^ 2 ≤
          ((wNorm2 I T p * templNorm2 T : ℚ) : ℝ) := by
        exact_mod_cast ccNum_sq_le I T p
      calc ((ccNum I T p : ℚ) : ℝ)
          ≤ |((ccNum I T p : ℚ) : ℝ)| := le_abs_self _
        _ = Real.sqrt (((ccNum I T p : ℚ) : ℝ) ^ 2) :=
            (Real.sqrt_sq_eq_abs _).symm
        _ ≤ Real.sqrt ((wNorm2 I T p * templNorm2 T : ℚ) : ℝ) :=
            Real.sqrt_le_sqrt hsq

/-- A window that is pixel-identical to the template scores exactly 1. -/
theorem score_eq_one_of_window_eq (I T : GrayImg) (p : ℕ × ℕ)
    (hw : ∀ ij ∈ tIdx T, I.px (p.2 + ij.1) (p.1 + ij.2) = T.px ij.1 ij.2) :
    score I T p = 1 := by
  unfold score
  by_cases hS : templNorm2 T = 0
  · rw [if_pos hS]
  · rw [if_neg hS]
    have hwm : wmean I T p = tmean T := by
      unfold wmean tmean
      congr 1
      exact Finset.sum_congr rfl fun ij hij => hw ij hij
    have hnum : ccNum I T p = templNorm2 T := by
      unfold ccNum templNorm2
      refine Finset.sum_congr rfl fun ij hij => ?_
      rw [hw ij hij, hwm]
      ring
    have hwn : wNorm2 I T p = templNorm2 T := by
      unfold wNorm2 templNorm2
      refine Finset.sum_congr rfl fun ij hij => ?_
      rw [hw ij hij, hwm]
    have hpos : (0 : ℝ) < ((templNorm2 T : ℚ) : ℝ) := by
      have h1 : (0 : ℚ) < templNorm2 T :=
        lt_of_le_of_ne (templNorm2_nonneg T) (Ne.symm hS)
      exact_mod_cast h1
    rw [hnum, hwn]
    rw [show ((templNorm2 T * templNorm2 T : ℚ) : ℝ) =
        ((templNorm2 T : ℚ) : ℝ) * ((templNorm2 T : ℚ) : ℝ) by push_cast; ring]
    rw [Real.sqrt_mul_self hpos.le]
    exact div_self hpos.ne'

/-- A rational certificate that an offset scores strictly below 1
(for a non-uniform template). -/
theorem score_lt_one_of (I T : GrayImg) (p : ℕ × ℕ)
    (hS : templNorm2 T ≠ 0)
    (h : ccNum I T p < 0 ∨ ccNum I T p ^ 2 < wNorm2 I T p * templNorm2 T) :
    score I T p < 1 := by
  unfold score
  rw [if_neg hS]
  rcases (Real.sqrt_nonneg ((wNorm2 I T p * templNorm2 T : ℚ) : ℝ)).eq_or_lt
    with h0 | h0
  · rw [← h0, div_zero]
    exact zero_lt_one
  · rcases h with hneg | hlt
    · have hn : ((ccNum I T p : ℚ) : ℝ) < 0 := by exact_mod_cast hneg
      exact lt_trans (div_neg_of_neg_of_pos hn h0) zero_lt_one
    · rw [div_lt_one h0]
      rcases le_or_lt ((ccNum I T p : ℚ) : ℝ) 0 with hn | hp
      · exact lt_of_le_of_lt hn h0
      · have hsq : ((ccNum I T p : ℚ) : ℝ) ^ 2 <
            ((wNorm2 I T p * templNorm2 T : ℚ) : ℝ) := by
          exact_mod_cast hlt
        calc ((ccNum I T p : ℚ) : ℝ)
            = Real.sqrt (((ccNum I T p : ℚ) : ℝ) ^ 2) :=
              (Real.sqrt_sq hp.le).symm
          _ < Real.sqrt ((wNorm2 I T p * templNorm2 T : ℚ) : ℝ) :=
              Real.sqrt_lt_sqrt (sq_nonneg _) hsq

/-- An offset whose numerator vanishes scores 0 (non-uniform template). -/
theorem score_of_ccNum_zero (I T : GrayImg) (p : ℕ × ℕ)
    (hS : templNorm2 T ≠ 0) (h : ccNum I T p = 0) : score I T p = 0 := by
  unfold score
  rw [if_neg hS, h]
  simp

/-- For a uniform (zero-variance) template, `minMaxLoc` lands on the very
first offset, `(0, 0)`: the surface is constant 1. -/
theorem minMaxLocArg_of_uniform (I T : GrayImg) (hS : templNorm2 T = 0) :
    minMaxLocArg I T = (0, 0) := by
  unfold minMaxLocArg
  apply scanMax_of_le
  intro a _
  unfold score
  rw [if_pos hS, if_pos hS]

/-- For a uniform template the maximum of the surface is 1. -/
theorem maxVal_of_uniform (I T : GrayImg) (hS : templNorm2 T = 0) :
    maxVal I T = 1 := by
  unfold maxVal score
  rw [if_pos hS]

/-- Over a constant frame every window mean equals the constant. -/
theorem wmean_const (I T : GrayImg) (p : ℕ × ℕ) (c : ℚ)
    (hc : ∀ i j, I.px i j = c) (hh : 0 < T.h) (hw : 0 < T.w) :
    wmean I T p = c := by
  unfold wmean
  have hsum : (∑ ij ∈ tIdx T, I.px (p.2 + ij.1) (p.1 + ij.2)) =
      ((T.h : ℚ) * (T.w : ℚ)) * c := by
    rw [Finset.sum_congr rfl fun ij _ => hc (p.2 + ij.1) (p.1 + ij.2)]
    rw [Finset.sum_const, tIdx, Finset.card_product, Finset.card_range,
      Finset.card_range, nsmul_eq_mul]
    push_cast
    ring
  have h1 : (T.h : ℚ) ≠ 0 := Nat.cast_ne_zero.mpr hh.ne'
  have h2 : (T.w : ℚ) ≠ 0 := Nat.cast_ne_zero.mpr hw.ne'
  rw [hsum]
  unfold area
  field_simp

/-- Over a constant frame the correlation numerator vanishes everywhere. -/
theorem ccNum_const_frame (I T : GrayImg) (p : ℕ × ℕ) (c : ℚ)
    (hc : ∀ i j, I.px i j = c) (hh : 0 < T.h) (hw : 0 < T.w) :
    ccNum I T p = 0 := by
  unfold ccNum
  refine Finset.sum_eq_zero fun ij _ => ?_
  rw [hc (p.2 + ij.1) (p.1 + ij.2), wmean_const I T p c hc hh hw,
    sub_self, zero_mul]

/-- Constant frame, non-uniform template: the surface maximum is 0. -/
theorem maxVal_of_const_frame (I T : GrayImg) (c : ℚ)
    (hc : ∀ i j, I.px i j = c) (hS : templNorm2 T ≠ 0)
    (hh : 0 < T.h) (hw : 0 < T.w) : maxVal I T = 0 := by
  unfold maxVal
  exact score_of_ccNum_zero I T _ hS
    (ccNum_const_frame I T _ c hc hh hw)

/-! ### Behavior of `find_image_coordinates` on each path -/

/-- A failed frame capture (the screenshot raises) returns `None`. -/
theorem find_capture_fail (tm : Option ColorImg) (t : ℝ) :
    find_image_coordinates ⟨none, tm⟩ t = none := rfl

/-- A reference image that fails to decode returns `None`. -/
theorem find_decode_fail (s : ColorImg) (t : ℝ) :
    find_image_coordinates ⟨some s, none⟩ t = none := rfl

/-- Unfolding of the happy path of `find_image_coordinates`. -/
theorem find_some_some (s tm : ColorImg) (t : ℝ) :
    find_image_coordinates ⟨some s, some tm⟩ t =
      (if dimsOk (toGray s) (toGray tm) then
        if t ≤ maxVal (toGray s) (toGray tm) then
          some ⟨(minMaxLocArg (toGray s) (toGray tm)).1 + (toGray tm).w / 2,
                (minMaxLocArg (toGray s) (toGray tm)).2 + (toGray tm).h / 2,
                maxVal (toGray s) (toGray tm)⟩
        else none
      else none) := rfl

/-- At or above the threshold the function returns the best window's
center with the confidence attached. -/
theorem find_found (s tm : ColorImg) (t : ℝ)
    (hd : dimsOk (toGray s) (toGray tm))
    (ht : t ≤ maxVal (toGray s) (toGray tm)) :
    find_image_coordinates ⟨some s, some tm⟩ t =
      some ⟨(minMaxLocArg (toGray s) (toGray tm)).1 + (toGray tm).w / 2,
            (minMaxLocArg (toGray s) (toGray tm)).2 + (toGray tm).h / 2,
            maxVal (toGray s) (toGray tm)⟩ := by
  rw [find_some_some, if_pos hd, if_pos ht]

/-- Below the threshold the function returns `None`. -/
theorem find_below (s tm : ColorImg) (t : ℝ)
    (hd : dimsOk (toGray s) (toGray tm))
    (ht : maxVal (toGray s) (toGray tm) < t) :
    find_image_coordinates ⟨some s, some tm⟩ t = none := by
  rw [find_some_some, if_pos hd, if_neg (not_le.mpr ht)]

/-- A template that does not fit (or is empty) makes `cv2.matchTemplate`
raise; the exception is caught and `None` is returned. -/
theorem find_oversize (s tm : ColorImg) (t : ℝ)
    (hd : ¬ dimsOk (toGray s) (toGray tm)) :
    find_image_coordinates ⟨some s, some tm⟩ t = none := by
  rw [find_some_some, if_neg hd]

/-- If one offset scores 1 and every other offset scores strictly less,
`minMaxLoc` returns that offset and the maximum is 1. -/
theorem minMaxLocArg_eq_of_unique (I T : GrayImg) (p0 : ℕ × ℕ)
    (hmem : p0 ∈ offsets (I.h - T.h + 1) (I.w - T.w + 1))
    (hone : score I T p0 = 1)
    (hlt : ∀ q ∈ offsets (I.h - T.h + 1) (I.w - T.w + 1),
      q ≠ p0 → score I T q < 1) :
    minMaxLocArg I T = p0 ∧ maxVal I T = 1 := by
  have hge : score I T p0 ≤ score I T (minMaxLocArg I T) :=
    scanMax_ge_mem (score I T) _ (0, 0) p0 hmem
  have hle : score I T (minMaxLocArg I T) ≤ 1 := score_le_one I T _
  have hr1 : score I T (minMaxLocArg I T) = 1 :=
    le_antisymm hle (hone ▸ hge)
  have h00 : (0, 0) ∈ offsets (I.h - T.h + 1) (I.w - T.w + 1) :=
    mem_offsets.mpr ⟨Nat.succ_pos _, Nat.succ_pos _⟩
  have hrmem : minMaxLocArg I T ∈ offsets (I.h - T.h + 1) (I.w - T.w + 1) := by
    rcases scanMax_mem (score I T)
        (offsets (I.h - T.h + 1) (I.w - T.w + 1)) (0, 0) with h | h
    · unfold minMaxLocArg
      rw [h]
      exact h00
    · exact h
  by_cases hrp : minMaxLocArg I T = p0
  · refine ⟨hrp, ?_⟩
    unfold maxVal
    rw [hrp, hone]
  · exact absurd hr1 (ne_of_lt (hlt _ hrmem hrp))

/-- Round-trip law, repaired: a frame containing a window pixel-identical to
the (non-uniform) template at the unique best-scoring offset yields the true
center of that window with confidence 1. -/
theorem find_perfect_match (s tm : ColorImg) (t : ℝ) (x0 y0 : ℕ)
    (hd : dimsOk (toGray s) (toGray tm))
    (hwin : ∀ ij ∈ tIdx (toGray tm),
      (toGray s).px (y0 + ij.1) (x0 + ij.2) = (toGray tm).px ij.1 ij.2)
    (hx : x0 + (toGray tm).w ≤ (toGray s).w)
    (hy : y0 + (toGray tm).h ≤ (toGray s).h)
    (hS : templNorm2 (toGray tm) ≠ 0)
    (huniq : ∀ q ∈ offsets ((toGray s).h - (toGray tm).h + 1)
        ((toGray s).w - (toGray tm).w + 1), q ≠ (x0, y0) →
      ccNum (toGray s) (toGray tm) q < 0 ∨
        ccNum (toGray s) (toGray tm) q ^ 2 <
          wNorm2 (toGray s) (toGray tm) q * templNorm2 (toGray tm))
    (ht : t ≤ 1) :
    find_image_coordinates ⟨some s, some tm⟩ t =
      some ⟨x0 + (toGray tm).w / 2, y0 + (toGray tm).h / 2, 1⟩ := by
  have hmem : ((x0, y0) : ℕ × ℕ) ∈
      offsets ((toGray s).h - (toGray tm).h + 1)
        ((toGray s).w - (toGray tm).w + 1) := by
    refine mem_offsets.mpr ⟨?_, ?_⟩
    · have := hd.2.1
      omega
    · have := hd.1
      omega
  obtain ⟨harg, hmax⟩ := minMaxLocArg_eq_of_unique (toGray s) (toGray tm)
    (x0, y0) hmem (score_eq_one_of_window_eq _ _ _ hwin)
    (fun q hq hne => score_lt_one_of _ _ _ hS (huniq q hq hne))
  rw [find_found s tm t hd (le_of_le_of_eq ht hmax.symm), harg, hmax]

/-- The red reference is uniform after grayscale conversion. -/
theorem templNorm2_red : templNorm2 (toGray redTemplate) = 0 := by
  norm_num [templNorm2, tmean, tIdx, area, toGray, redTemplate, redPx, grayVal,
    Finset.sum_product, Finset.sum_range_succ]

/-- The black/white reference is not uniform after grayscale conversion. -/
theorem templNorm2_bw : templNorm2 (toGray bwTemplate) ≠ 0 := by
  norm_num [templNorm2, tmean, tIdx, area, toGray, bwTemplate, blackPx,
    whitePx, grayVal, Finset.sum_product, Finset.sum_range_succ]

/-- On the red-square scenario the code returns center (1, 1) — offset
(0, 0) plus half the 2×2 template — with confidence 1, because the uniform
template makes the whole correlation surface equal 1 and `minMaxLoc` picks
the first offset. -/
theorem find_envRed :
    find_image_coordinates ⟨some redSquareFrame, some redTemplate⟩ (4 / 5) =
      some ⟨1, 1, 1⟩ := by
  have hS : templNorm2 (toGray redTemplate) = 0 := templNorm2_red
  have hd : dimsOk (toGray redSquareFrame) (toGray redTemplate) := by decide
  have hmax := maxVal_of_uniform (toGray redSquareFrame) (toGray redTemplate) hS
  have harg :=
    minMaxLocArg_of_uniform (toGray redSquareFrame) (toGray redTemplate) hS
  rw [find_found _ _ _ hd (by rw [hmax]; norm_num), harg, hmax]
  rfl

/-- The all-white frame is constant 255 after grayscale conversion. -/
theorem whiteFrame_const : ∀ i j, (toGray whiteFrame).px i j = 255 := by
  intro i j
  show grayVal whitePx = 255
  norm_num [grayVal, whitePx]

/-- Below-threshold case: black/white template over the all-white frame has
maximum correlation 0. -/
theorem maxVal_envBelow : maxVal (toGray whiteFrame) (toGray bwTemplate) = 0 :=
  maxVal_of_const_frame (toGray whiteFrame) (toGray bwTemplate) 255
    whiteFrame_const templNorm2_bw (by decide) (by decide)

/-- Below-threshold case evaluates to `None`. -/
theorem find_envBelow :
    find_image_coordinates ⟨some whiteFrame, some bwTemplate⟩ (4 / 5) =
      none := by
  refine find_below _ _ _ (by decide) ?_
  rw [maxVal_envBelow]
  norm_num

/-! ### Trace bookkeeping -/

theorem captureIdxs_append (l1 l2 : List VEvent) :
    captureIdxs (l1 ++ l2) = captureIdxs l1 ++ captureIdxs l2 := by
  induction l1 with
  | nil => rfl
  | cons a rest ih => cases a <;> simp [captureIdxs, ih]

theorem sleepsOf_append (l1 l2 : List VEvent) :
    sleepsOf (l1 ++ l2) = sleepsOf l1 ++ sleepsOf l2 := by
  induction l1 with
  | nil => rfl
  | cons a rest ih => cases a <;> simp [sleepsOf, ih]

/-! ### The black/white perfect-match instance -/

/-- The all-white 1×1 reference is uniform after grayscale conversion. -/
theorem templNorm2_white : templNorm2 (toGray whiteTemplate) = 0 := by
  norm_num [templNorm2, tmean, tIdx, area, toGray, whiteTemplate, whitePx,
    grayVal, Finset.sum_product, Finset.sum_range_succ]

/-- `bwFrame` is pixel-identical to `bwTemplate` at offset (1, 0). -/
theorem bw_window : ∀ ij ∈ tIdx (toGray bwTemplate),
    (toGray bwFrame).px (0 + ij.1) (1 + ij.2) =
      (toGray bwTemplate).px ij.1 ij.2 := by
  intro ij hij
  obtain ⟨i, j⟩ := ij
  simp only [tIdx, toGray, bwTemplate, Finset.mem_product,
    Finset.mem_range] at hij
  obtain ⟨hi, hj⟩ := hij
  interval_cases i <;> interval_cases j <;>
    norm_num [toGray, bwFrame, bwTemplate, grayVal, blackPx, whitePx]

/-- Offset (1, 0) is the unique best match of `bwTemplate` in `bwFrame`:
the only other offset has a negative correlation numerator. -/
theorem bw_uniq : ∀ q ∈ offsets ((toGray bwFrame).h - (toGray bwTemplate).h + 1)
      ((toGray bwFrame).w - (toGray bwTemplate).w + 1), q ≠ (1, 0) →
    ccNum (toGray bwFrame) (toGray bwTemplate) q < 0 ∨
      ccNum (toGray bwFrame) (toGray bwTemplate) q ^ 2 <
        wNorm2 (toGray bwFrame) (toGray bwTemplate) q *
          templNorm2 (toGray bwTemplate) := by
  intro q hq hne
  have hlist : offsets ((toGray bwFrame).h - (toGray bwTemplate).h + 1)
      ((toGray bwFrame).w - (toGray bwTemplate).w + 1) = [(0, 0), (1, 0)] := rfl
  rw [hlist] at hq
  have hq' : q = (0, 0) ∨ q = (1, 0) := by simpa using hq
  rcases hq' with rfl | rfl
  · left
    norm_num [ccNum, wmean, tmean, tIdx, area, toGray, bwFrame, bwTemplate,
      grayVal, blackPx, whitePx, Finset.sum_product, Finset.sum_range_succ]
  · exact absurd rfl hne

/-! ### Claims -/

/-- C5: the DOM Locator tries candidates strictly in rank order and returns
the first one that probes visible, tagging the result with that candidate
(hence its strategy name and rank); a probe failure on an earlier candidate
(the `error` outcome, covering malformed patterns and transient query
errors) is swallowed exactly like a not-visible result: every candidate up
to and including the match is probed and the cascade is never aborted. -/
theorem C5_theorem (probe : Candidate → Probe) (l1 : List Candidate)
    (c : Candidate) (l2 : List Candidate)
    (h1 : ∀ a ∈ l1, probe a ≠ Probe.visible) (hc : probe c = Probe.visible) :
    cascade probe (l1 ++ c :: l2) = (some c, l1 ++ [c]) := by
  induction l1 with
  | nil => simp [cascade, hc]
  | cons a rest ih =>
    have ha : probe a ≠ Probe.visible := h1 a (List.mem_cons_self a rest)
    have hrest : ∀ b ∈ rest, probe b ≠ Probe.visible :=
      fun b hb => h1 b (List.mem_cons_of_mem a hb)
    cases hpa : probe a with
    | visible => exact absurd hpa ha
    | notVisible => simp [cascade, hpa, ih hrest]
    | error => simp [cascade, hpa, ih hrest]

/-- C5 witness: candidates [A, B, C] where A's probe raises, B is not
visible and only C is visible: the cascade probes A, B, C in order and
matches C. -/
theorem C5_witness :
    cascade probeW [candA, candB, candC] =
      (some candC, [candA, candB, candC]) :=
  C5_theorem probeW [candA, candB] candC [] (by decide) (by decide)

/-- C6: the DOM Locator applied to an empty candidate list returns
`NotFound` (no matched candidate) and issues zero visibility probes (the
probed-candidates trace is empty), for every probe function. -/
theorem C6_theorem (probe : Candidate → Probe) :
    cascade probe [] = (none, []) := rfl

/-- C9: in every `visual_click` run, every click event at a coordinate is
preceded in the trace by a pointer-move event to that same coordinate. -/
theorem C9_theorem (env : VisualEnv) (w : Bool) :
    movedBefore (visual_click env w).2 [] = true := by
  rcases h0 : findAt env (4 / 5) 0 with _ | c0
  · rcases h1 : findAt env (4 / 5) 1 with _ | c1 <;> cases w <;>
      simp [visual_click, h0, h1, movedBefore]
  · cases w <;> simp [visual_click, h0, movedBefore]

/-- C10: the DOM entry point `add_to_cart` is total at its boundary — it
returns `true` exactly when navigation succeeded, some selector matched and
the click succeeded, and collapses every failure mode (navigation timeout
or error, no button found, click error) into the single value `false`; in
particular a navigation timeout and a button-not-found run are
indistinguishable to the caller. -/
theorem C10_theorem :
    (∀ env : ClassicEnv, add_to_cart env = true ↔
      (env.goto = GotoR.ok ∧
        (cascade env.buttonProbe button_selectors).1.isSome = true ∧
        env.clickOk = true)) ∧
    add_to_cart envNavTimeout = false ∧
    add_to_cart envNoButton = false ∧
    envNavTimeout.goto ≠ envNoButton.goto := by
  refine ⟨?_, rfl, rfl, by decide⟩
  intro env
  obtain ⟨g, cp, cc, bp, ck⟩ := env
  cases g with
  | ok =>
    cases hc : (cascade bp button_selectors).1 with
    | none => simp [add_to_cart, add_to_cart_body, hc]
    | some c => cases ck <;> simp [add_to_cart, add_to_cart_body, hc]
  | timeout => simp [add_to_cart, add_to_cart_body]
  | fail => simp [add_to_cart, add_to_cart_body]

/-- C10 witness: a fully successful run returns `true`. -/
theorem C10_witness : add_to_cart envGood = true :=
  (C10_theorem.1 envGood).mpr ⟨rfl, rfl, rfl⟩

/-- C1 counterexample: the three negative outcomes are NOT distinguishable
at the caller boundary — a reference that fails to decode, a failed frame
capture and a below-threshold match all return the very same value `None`;
moreover a decode failure is retried exactly like not-found (the scheduler
still performs two locate invocations). -/
theorem C1_counterexample :
    find_image_coordinates ⟨some whiteFrame, none⟩ (4 / 5) = none ∧
    find_image_coordinates ⟨none, some bwTemplate⟩ (4 / 5) = none ∧
    find_image_coordinates ⟨some whiteFrame, some bwTemplate⟩ (4 / 5) =
      none ∧
    countLocate (visual_click ⟨fun _ => some whiteFrame, none⟩ false).2 = 2 := by
  refine ⟨rfl, rfl, find_envBelow, ?_⟩
  have h0 : findAt ⟨fun _ => some whiteFrame, none⟩ (4 / 5) 0 = none := rfl
  have h1 : findAt ⟨fun _ => some whiteFrame, none⟩ (4 / 5) 1 = none := rfl
  simp [visual_click, h0, h1, countLocate, isLocate]

/-- C1 amended: `find_image_coordinates` collapses all three negative
outcomes into the same value `None` — reference decode failure, frame
capture failure and a below-threshold match are indistinguishable to the
caller — and a decode failure is retried by the wrapper like any other
`None` (two locate invocations). -/
theorem C1_amended :
    (∀ (scr : Option ColorImg) (t : ℝ),
      find_image_coordinates ⟨scr, none⟩ t = none) ∧
    (∀ (tpl : Option ColorImg) (t : ℝ),
      find_image_coordinates ⟨none, tpl⟩ t = none) ∧
    (∀ (s tm : ColorImg) (t : ℝ), dimsOk (toGray s) (toGray tm) →
      maxVal (toGray s) (toGray tm) < t →
      find_image_coordinates ⟨some s, some tm⟩ t = none) ∧
    (∀ (fr : ℕ → Option ColorImg) (w : Bool),
      countLocate (visual_click ⟨fr, none⟩ w).2 = 2) := by
  refine ⟨?_, ?_, find_below, ?_⟩
  · intro scr t
    cases scr with
    | none => rfl
    | some s => rfl
  · intro tpl t
    rfl
  · intro fr w
    have h0 : findAt ⟨fr, none⟩ (4 / 5) 0 = none := by
      show find_image_coordinates ⟨fr 0, none⟩ (4 / 5) = none
      cases fr 0 with
      | none => rfl
      | some s => rfl
    have h1 : findAt ⟨fr, none⟩ (4 / 5) 1 = none := by
      show find_image_coordinates ⟨fr 1, none⟩ (4 / 5) = none
      cases fr 1 with
      | none => rfl
      | some s => rfl
    cases w <;> simp [visual_click, h0, h1, countLocate, isLocate]

/-- C1 witness for the amended statement, at concrete inputs. -/
theorem C1_witness :
    find_image_coordinates ⟨some bwFrame, none⟩ (1 / 2) = none ∧
    find_image_coordinates ⟨none, some redTemplate⟩ (1 / 2) = none ∧
    find_image_coordinates ⟨some whiteFrame, some bwTemplate⟩ (1 / 2) =
      none ∧
    countLocate (visual_click ⟨fun _ => some bwFrame, none⟩ true).2 = 2 :=
  ⟨C1_amended.1 (some bwFrame) (1 / 2),
   C1_amended.2.1 (some redTemplate) (1 / 2),
   C1_amended.2.2.1 whiteFrame bwTemplate (1 / 2) (by decide)
     (by rw [maxVal_envBelow]; norm_num),
   C1_amended.2.2.2 (fun _ => some bwFrame) true⟩

/-- C2: the scheduler performs at most 2 locate invocations and terminates;
it sleeps 0.5 s once before the first attempt; if the first attempt finds
the target there is exactly one invocation and the result is `true`; on a
first `None` it sleeps 1 s (longer than the initial 0.5 s wait) exactly
once, attempts exactly once more, and returns the last resolution. -/
theorem C2_theorem (env : VisualEnv) (w : Bool) :
    countLocate (visual_click env w).2 ≤ 2 ∧
    ((1 : ℚ) / 2 < 1) ∧
    (∀ c, findAt env (4 / 5) 0 = some c →
      countLocate (visual_click env w).2 = 1 ∧
      sleepsOf (visual_click env w).2 = [1 / 2] ∧
      (visual_click env w).1 = true) ∧
    (findAt env (4 / 5) 0 = none →
      countLocate (visual_click env w).2 = 2 ∧
      sleepsOf (visual_click env w).2 = [1 / 2, 1] ∧
      (visual_click env w).1 = (findAt env (4 / 5) 1).isSome) := by
  rcases h0 : findAt env (4 / 5) 0 with _ | c0
  · rcases h1 : findAt env (4 / 5) 1 with _ | c1 <;> cases w <;>
      simp [visual_click, h0, h1, countLocate, isLocate, sleepsOf,
        sleepsOf_append] <;> norm_num
  · cases w <;>
      simp [visual_click, h0, countLocate, isLocate, sleepsOf,
        sleepsOf_append] <;> norm_num

/-- C2 witness: with a reference that never decodes both attempts return
`None`: exactly 2 invocations, sleeps 0.5 s then 1 s, result `false`. -/
theorem C2_witness :
    countLocate (visual_click ⟨fun _ => none, none⟩ false).2 = 2 ∧
    sleepsOf (visual_click ⟨fun _ => none, none⟩ false).2 = [1 / 2, 1] ∧
    (visual_click ⟨fun _ => none, none⟩ false).1 = false := by
  have h := C2_theorem ⟨fun _ => none, none⟩ false
  have h0 : findAt ⟨fun _ => none, none⟩ (4 / 5) 0 = none := rfl
  obtain ⟨hc, hs, hr⟩ := h.2.2.2 h0
  exact ⟨hc, hs, by rw [hr]; rfl⟩

/-- C3: for decodable inputs whose template fits the frame, with global
maximum correlation c, the locator returns found (with confidence c
attached) exactly when c is at or above the threshold and absent exactly
when c is below it; hence found at a higher threshold implies found at any
lower threshold. -/
theorem C3_theorem (s tm : ColorImg) (c t : ℝ)
    (hd : dimsOk (toGray s) (toGray tm))
    (hc : maxVal (toGray s) (toGray tm) = c) :
    ((t ≤ c → ∃ r : Coords,
        find_image_coordinates ⟨some s, some tm⟩ t = some r ∧ r.val = c) ∧
     (c < t → find_image_coordinates ⟨some s, some tm⟩ t = none)) ∧
    (∀ t1 t2 : ℝ, t1 < t2 →
      (find_image_coordinates ⟨some s, some tm⟩ t2).isSome = true →
      (find_image_coordinates ⟨some s, some tm⟩ t1).isSome = true) := by
  subst hc
  refine ⟨⟨?_, ?_⟩, ?_⟩
  · intro ht
    exact ⟨_, find_found s tm t hd ht, rfl⟩
  · intro ht
    exact find_below s tm t hd ht
  · intro t1 t2 hlt h2
    rcases le_or_lt t2 (maxVal (toGray s) (toGray tm)) with hle | hgt
    · rw [find_found s tm t1 hd (le_trans hlt.le hle)]
      rfl
    · rw [find_below s tm t2 hd hgt] at h2
      simp at h2

/-- C3 witness: an all-white frame with a uniform 1×1 reference has maximum
correlation 1: found at threshold 0.8, absent at threshold 2. -/
theorem C3_witness :
    (∃ r : Coords,
      find_image_coordinates ⟨some whiteFrame, some whiteTemplate⟩ (4 / 5) =
        some r ∧ r.val = 1) ∧
    find_image_coordinates ⟨some whiteFrame, some whiteTemplate⟩ 2 =
      none := by
  have hmax :=
    maxVal_of_uniform (toGray whiteFrame) (toGray whiteTemplate) templNorm2_white
  have ha := C3_theorem whiteFrame whiteTemplate 1 (4 / 5) (by decide) hmax
  have hb := C3_theorem whiteFrame whiteTemplate 1 2 (by decide) hmax
  exact ⟨ha.1.1 (by norm_num), hb.1.2 (by norm_num)⟩

/-- C4 counterexample: the frame contains a sub-region pixel-identical to
the solid-red reference at offset (2, 2) whose true center is (3, 3), yet
locate at threshold 0.8 returns center (1, 1): the reference is uniform
after grayscale conversion, OpenCV defines the whole `TM_CCOEFF_NORMED`
surface to be 1 in that case, and `minMaxLoc` picks the first offset
(0, 0); so the scaled-up spec scenario yields center (5, 5), not
(45, 45). -/
theorem C4_counterexample :
    (∀ ij ∈ tIdx (toGray redTemplate),
      (toGray redSquareFrame).px (2 + ij.1) (2 + ij.2) =
        (toGray redTemplate).px ij.1 ij.2) ∧
    find_image_coordinates ⟨some redSquareFrame, some redTemplate⟩ (4 / 5) =
      some ⟨1, 1, 1⟩ ∧
    ¬ ∃ r : Coords,
        find_image_coordinates ⟨some redSquareFrame, some redTemplate⟩
            (4 / 5) = some r ∧
          r.x = 3 ∧ r.y = 3 := by
  refine ⟨?_, find_envRed, ?_⟩
  · intro ij hij
    show grayVal (redSquareFrame.px (2 + ij.1) (2 + ij.2)) =
      grayVal (redTemplate.px ij.1 ij.2)
    have hpx : redSquareFrame.px (2 + ij.1) (2 + ij.2) = redPx := by
      simp [redSquareFrame]
    rw [hpx]
    rfl
  · rintro ⟨r, hr, hx, hy⟩
    rw [find_envRed] at hr
    injection hr with hr'
    rw [← hr'] at hx
    simp at hx

/-- C4, amended: for every frame containing a sub-region pixel-identical to
the reference at offset (x0, y0), provided the reference is non-uniform and
every other offset scores strictly below 1 (a rational certificate:
negative numerator or squared numerator below the Cauchy–Schwarz bound), so
that (x0, y0) is the unique best match, locate at any threshold ≤ 1 returns
found with confidence exactly 1 and center (x0 + w/2, y0 + h/2), the true
center of that sub-region.  (The solid-red scenario violates non-uniformity
and gets center (5, 5) instead of (45, 45), confidence still 1.) -/
theorem C4_amended (s tm : ColorImg) (t : ℝ) (x0 y0 : ℕ)
    (hd : dimsOk (toGray s) (toGray tm))
    (hwin : ∀ ij ∈ tIdx (toGray tm),
      (toGray s).px (y0 + ij.1) (x0 + ij.2) = (toGray tm).px ij.1 ij.2)
    (hx : x0 + (toGray tm).w ≤ (toGray s).w)
    (hy : y0 + (toGray tm).h ≤ (toGray s).h)
    (hS : templNorm2 (toGray tm) ≠ 0)
    (huniq : ∀ q ∈ offsets ((toGray s).h - (toGray tm).h + 1)
        ((toGray s).w - (toGray tm).w + 1), q ≠ (x0, y0) →
      ccNum (toGray s) (toGray tm) q < 0 ∨
        ccNum (toGray s) (toGray tm) q ^ 2 <
          wNorm2 (toGray s) (toGray tm) q * templNorm2 (toGray tm))
    (ht : t ≤ 1) :
    find_image_coordinates ⟨some s, some tm⟩ t =
      some ⟨x0 + (toGray tm).w / 2, y0 + (toGray tm).h / 2, 1⟩ :=
  find_perfect_match s tm t x0 y0 hd hwin hx hy hS huniq ht

/-- C4 witness: black/white reference at offset (1, 0) of the
white/black/white frame is a unique perfect match: found with confidence 1
and true center (2, 0). -/
theorem C4_witness :
    find_image_coordinates ⟨some bwFrame, some bwTemplate⟩ (4 / 5) =
      some ⟨2, 0, 1⟩ :=
  C4_amended bwFrame bwTemplate (4 / 5) 1 0 (by decide) bw_window
    (by decide) (by decide) templNorm2_bw bw_uniq (by norm_num)

/-- C7 counterexample: a degenerate uniform reference image does not make
locate return absent — it returns found with confidence 1 (OpenCV defines
the whole correlation surface to be 1 for a zero-variance template). -/
theorem C7_counterexample :
    templNorm2 (toGray redTemplate) = 0 ∧
    find_image_coordinates ⟨some redSquareFrame, some redTemplate⟩ (4 / 5) =
      some ⟨1, 1, 1⟩ ∧
    find_image_coordinates ⟨some redSquareFrame, some redTemplate⟩ (4 / 5) ≠
      none := by
  refine ⟨templNorm2_red, find_envRed, ?_⟩
  rw [find_envRed]
  exact Option.some_ne_none _

/-- C7, amended: locate is total on degenerate inputs — a reference larger
than the frame (or empty) yields absent rather than an error; a uniform
frame with a non-uniform reference yields absent at any positive threshold;
but a uniform reference does not yield absent: it yields found with
confidence 1 and center (w/2, h/2), without crashing, at any
threshold ≤ 1. -/
theorem C7_amended :
    (∀ (s tm : ColorImg) (t : ℝ), ¬ dimsOk (toGray s) (toGray tm) →
      find_image_coordinates ⟨some s, some tm⟩ t = none) ∧
    (∀ (s tm : ColorImg) (t : ℝ) (c : ℚ), (∀ i j, (toGray s).px i j = c) →
      templNorm2 (toGray tm) ≠ 0 → dimsOk (toGray s) (toGray tm) →
      0 < t → find_image_coordinates ⟨some s, some tm⟩ t = none) ∧
    (∀ (s tm : ColorImg) (t : ℝ), templNorm2 (toGray tm) = 0 →
      dimsOk (toGray s) (toGray tm) → t ≤ 1 →
      find_image_coordinates ⟨some s, some tm⟩ t =
        some ⟨(toGray tm).w / 2, (toGray tm).h / 2, 1⟩) := by
  refine ⟨fun s tm t hd => find_oversize s tm t hd, ?_, ?_⟩
  · intro s tm t c hc hS hd ht
    refine find_below s tm t hd ?_
    rw [maxVal_of_const_frame (toGray s) (toGray tm) c hc hS hd.1 hd.2.1]
    exact ht
  · intro s tm t hS hd ht
    have harg := minMaxLocArg_of_uniform (toGray s) (toGray tm) hS
    have hmax := maxVal_of_uniform (toGray s) (toGray tm) hS
    rw [find_found s tm t hd (le_of_le_of_eq ht hmax.symm), harg, hmax]
    simp

/-- C7 witness: oversized reference yields `None`; non-uniform reference
over a uniform frame yields `None`; uniform reference yields found with
confidence 1. -/
theorem C7_witness :
    find_image_coordinates ⟨some whiteFrame, some bigTemplate⟩ (4 / 5) =
      none ∧
    find_image_coordinates ⟨some whiteFrame, some bwTemplate⟩ (1 / 2) =
      none ∧
    find_image_coordinates ⟨some redSquareFrame, some redTemplate⟩ (1 / 2) =
      some ⟨1, 1, 1⟩ :=
  ⟨C7_amended.1 whiteFrame bigTemplate (4 / 5) (by decide),
   C7_amended.2.1 whiteFrame bwTemplate (1 / 2) 255 whiteFrame_const
     templNorm2_bw (by decide) (by norm_num),
   C7_amended.2.2 redSquareFrame redTemplate (1 / 2) templNorm2_red
     (by decide) (by norm_num)⟩

/-- C8: every attempt takes a fresh capture — the trace's capture indices
are [0] or [0, 1], without duplicates; when a retry happens, its capture
(index 1) occurs contiguously after the 1 s retry sleep, so the retry
operates on a screenshot taken after that wait; and the resolution of
attempt n depends only on frame n and the reference, never on another
attempt's capture. -/
theorem C8_theorem (env : VisualEnv) (w : Bool) :
    (captureIdxs (visual_click env w).2 = [0] ∨
      captureIdxs (visual_click env w).2 = [0, 1]) ∧
    (captureIdxs (visual_click env w).2).Nodup ∧
    (findAt env (4 / 5) 0 = none →
      captureIdxs (visual_click env w).2 = [0, 1] ∧
      List.IsInfix [VEvent.sleep 1, VEvent.locate 1, VEvent.capture 1]
        (visual_click env w).2) ∧
    (∀ (env' : VisualEnv) (n : ℕ), env'.frames n = env.frames n →
      env'.template = env.template →
      findAt env' (4 / 5) n = findAt env (4 / 5) n) := by
  have hpure : ∀ (env' : VisualEnv) (n : ℕ), env'.frames n = env.frames n →
      env'.template = env.template →
      findAt env' (4 / 5) n = findAt env (4 / 5) n := by
    intro env' n hf htp
    show find_image_coordinates ⟨env'.frames n, env'.template⟩ (4 / 5) =
      find_image_coordinates ⟨env.frames n, env.template⟩ (4 / 5)
    rw [hf, htp]
  rcases h0 : findAt env (4 / 5) 0 with _ | c0
  · have hidx : captureIdxs (visual_click env w).2 = [0, 1] := by
      rcases h1 : findAt env (4 / 5) 1 with _ | c1 <;> cases w <;>
        simp [visual_click, h0, h1, captureIdxs, captureIdxs_append]
    have hinf : List.IsInfix
        [VEvent.sleep 1, VEvent.locate 1, VEvent.capture 1]
        (visual_click env w).2 := by
      rcases h1 : findAt env (4 / 5) 1 with _ | c1
      · cases w
        · exact ⟨[VEvent.sleep (1 / 2), VEvent.locate 0, VEvent.capture 0],
            [], by simp [visual_click, h0, h1]⟩
        · exact ⟨[VEvent.waitSel, VEvent.sleep (1 / 2), VEvent.locate 0,
            VEvent.capture 0], [], by simp [visual_click, h0, h1]⟩
      · cases w
        · exact ⟨[VEvent.sleep (1 / 2), VEvent.locate 0, VEvent.capture 0],
            [VEvent.move c1.x c1.y, VEvent.click c1.x c1.y],
            by simp [visual_click, h0, h1]⟩
        · exact ⟨[VEvent.waitSel, VEvent.sleep (1 / 2), VEvent.locate 0,
            VEvent.capture 0],
            [VEvent.move c1.x c1.y, VEvent.click c1.x c1.y],
            by simp [visual_click, h0, h1]⟩
    refine ⟨Or.inr hidx, ?_, fun _ => ⟨hidx, hinf⟩, hpure⟩
    rw [hidx]
    decide
  · have hidx : captureIdxs (visual_click env w).2 = [0] := by
      cases w <;> simp [visual_click, h0, captureIdxs, captureIdxs_append]
    refine ⟨Or.inl hidx, ?_, ?_, hpure⟩
    · rw [hidx]
      decide
    · intro hcontra
      exact absurd hcontra (Option.some_ne_none c0)

/-- C8 witness: with a never-decoding reference the run retries — captures
[0, 1] and the retry block sits contiguously in the trace. -/
theorem C8_witness :
    captureIdxs (visual_click ⟨fun _ => none, none⟩ true).2 = [0, 1] ∧
    List.IsInfix [VEvent.sleep 1, VEvent.locate 1, VEvent.capture 1]
      (visual_click ⟨fun _ => none, none⟩ true).2 := by
  have h := C8_theorem ⟨fun _ => none, none⟩ true
  have h0 : findAt ⟨fun _ => none, none⟩ (4 / 5) 0 = none := rfl
  exact h.2.2.1 h0

end AddToCart
